import Mathlib

/-!
Verification of the folder-emulation layer of a GCS notebook backend.

The store is modelled as a flat list of blobs (key, size, content,
timestamps, content type), mirroring a Google Cloud Storage bucket.
The operations `list_files`, `get_file`, `create_folder`, `save_content`,
`delete_file` and `rename_file` are shallow embeddings of the methods of
`Client` in `services/gcs.py`; `createFolderPost` embeds the parameter
validation of `CreateFolderController.post` in `controllers/gcs.py`.
-/

set_option autoImplicit false

/-- A stored object (blob): flat key plus the metadata the service reads. -/
structure Blob where
  key : String
  size : Nat
  content : String
  timeCreated : String
  updated : String
  contentType : String
deriving DecidableEq, Repr

/-- A bucket is a flat list of blobs. -/
abbrev Store := List Blob

/-- Shorthand for a blob whose unused metadata fields are empty. -/
def mkB (k : String) (n : Nat) : Blob :=
  { key := k, size := n, content := "", timeCreated := "", updated := "", contentType := "" }

/-- Models Python `key.startswith(pre)` / a GCS listing prefix test. -/
def keyPre (pre s : String) : Bool := pre.data.isPrefixOf s.data

/-- Models Python `s.endswith('/')`. -/
def endsSlash (s : String) : Bool :=
  match s.data.getLast? with
  | some c => c == '/'
  | none => false

/-- Models Python `s[:-1] if s.endswith('/') else s`. -/
def stripSlash (s : String) : String :=
  if endsSlash s then String.mk s.data.dropLast else s

/-- Models `blob.exists()` for an exact key. -/
def existsKey (σ : Store) (k : String) : Bool := σ.any (fun b => b.key == k)

/-- Models `bucket.blob(k)` download: the first stored blob with that key. -/
def lookupBlob (σ : Store) (k : String) : Option Blob := σ.find? (fun b => b.key == k)

/-- Models `client.list_blobs(bucket, prefix=pre)` (no delimiter). -/
def blobsUnder (σ : Store) (pre : String) : List Blob :=
  σ.filter (fun b => keyPre pre b.key)

/-- Writing an object at a key replaces whatever was stored there. -/
def upsert (σ : Store) (b : Blob) : Store :=
  σ.filter (fun x => x.key != b.key) ++ [b]

-- Basic facts about the string helpers.

theorem data_append (s t : String) : (s ++ t).data = s.data ++ t.data := by
  cases s; cases t; rfl

theorem keyPre_iff (pre s : String) : keyPre pre s = true ↔ pre.data <+: s.data := by
  simp [keyPre, List.isPrefixOf_iff_prefix]

/-- A key extending `p ++ "/"` is never the key `p` itself. -/
theorem keyPre_slash_ne (p k : String) (h : keyPre (p ++ "/") k = true) : k ≠ p := by
  intro he
  rw [he] at h
  have hp : (p ++ "/").data <+: p.data := (keyPre_iff _ _).mp h
  have hlen : ((p ++ "/").data).length ≤ p.data.length := hp.length_le
  rw [data_append] at hlen
  simp at hlen

/-- The only key under `p ++ "/"` whose slash-stripped form is `p` is the
folder marker `p ++ "/"` itself. -/
theorem stripSlash_pre_eq (p k : String) (h1 : keyPre (p ++ "/") k = true)
    (h2 : stripSlash k = p) : k = p ++ "/" := by
  have hp : (p ++ "/").data <+: k.data := (keyPre_iff _ _).mp h1
  have hd : (p ++ "/").data = p.data ++ ['/'] := by
    rw [data_append]
  rcases k.data.eq_nil_or_concat with hk | ⟨l, a, hk⟩
  · exfalso
    rw [hk, hd] at hp
    have := hp.length_le
    simp at this
  · rw [List.concat_eq_append] at hk
    by_cases ha : a = '/'
    · subst ha
      have hend : endsSlash k = true := by
        unfold endsSlash
        rw [hk, List.getLast?_concat]
        rfl
      unfold stripSlash at h2
      rw [if_pos hend] at h2
      have hdl : k.data.dropLast = p.data := by
        have hx : (String.mk k.data.dropLast).data = p.data := by rw [h2]
        simpa using hx
      have hkd : k.data = p.data ++ ['/'] := by
        rw [hk] at hdl ⊢
        rw [List.dropLast_concat] at hdl
        rw [hdl]
      apply String.ext
      rw [hkd, hd]
    · have hend : endsSlash k = false := by
        unfold endsSlash
        rw [hk, List.getLast?_concat]
        simpa using ha
      unfold stripSlash at h2
      rw [if_neg (by simp [hend])] at h2
      subst h2
      exfalso
      rw [hd] at hp
      have hlen := hp.length_le
      simp at hlen

theorem existsKey_iff (σ : Store) (k : String) :
    existsKey σ k = true ↔ ∃ b ∈ σ, b.key = k := by
  simp [existsKey, List.any_eq_true]

theorem existsKey_false_iff (σ : Store) (k : String) :
    existsKey σ k = false ↔ ∀ b ∈ σ, b.key ≠ k := by
  rw [← Bool.not_eq_true, existsKey_iff]
  push_neg
  rfl

-- ## Operation embeddings (from `services/gcs.py`)

/-- The base64 alphabet, used by the `base64` branch of `get_file`. -/
def b64Alphabet : List Char :=
  "ABCDEFGHIJKLMNOPQRSTUVWXYZabcdefghijklmnopqrstuvwxyz0123456789+/".data

def b64CharAt (n : Nat) : Char := b64Alphabet.getD n '='

/-- Standard base64 of a byte list, three bytes at a time. -/
def b64go : List UInt8 → List Char
  | [] => []
  | [a] =>
      let n := a.toNat * 65536
      [b64CharAt (n / 262144), b64CharAt (n / 4096 % 64), '=', '=']
  | [a, b] =>
      let n := a.toNat * 65536 + b.toNat * 256
      [b64CharAt (n / 262144), b64CharAt (n / 4096 % 64), b64CharAt (n / 64 % 64), '=']
  | a :: b :: c :: rest =>
      let n := a.toNat * 65536 + b.toNat * 256 + c.toNat
      b64CharAt (n / 262144) :: b64CharAt (n / 4096 % 64) :: b64CharAt (n / 64 % 64) ::
        b64CharAt (n % 64) :: b64go rest

/-- Models `base64.b64encode(bytes).decode('utf-8')`. -/
def base64Encode (s : String) : String := String.mk (b64go s.toUTF8.toList)

/-- The observable result shapes of `Client.get_file`: a string (raw text,
also returned by the `json` branch), a base64 string, or the bare empty
list that the `except` handler returns. -/
inductive GetResult where
  | text (s : String)
  | b64 (s : String)
  | errEmptyList
deriving DecidableEq, Repr

/-- Embeds `Client.get_file`.  A missing blob makes the download raise, and
the handler returns `[]`.  Note the `json` branch returns the downloaded
text as is, exactly like the final `else` branch. -/
def get_file (σ : Store) (file_path form : String) : GetResult :=
  match lookupBlob σ file_path with
  | none => .errEmptyList
  | some b =>
    if form = "base64" then .b64 (base64Encode b.content)
    else if form = "json" then .text b.content
    else .text b.content

/-- Embeds `Client.create_folder`: computes the marker path and writes a
zero-byte blob there (no existence check), returning the new path. -/
def create_folder (σ : Store) (path folder_name : String) : String × Store :=
  let new_folder_path :=
    if path = "" then folder_name ++ "/" else path ++ "/" ++ folder_name ++ "/"
  (new_folder_path,
    upsert σ
      { key := new_folder_path, size := 0, content := "", timeCreated := "",
        updated := "", contentType := "application/x-www-form-urlencoded;charset=UTF-8" })

/-- The result dict of `Client.save_content`: the conflict dict carries
`success: False` and `status: 409`; the success dict carries `success: True`
and no status. -/
inductive SaveResult where
  | conflict (name bucket : String)
  | ok (name bucket : String) (size : Nat)
deriving DecidableEq, Repr

def SaveResult.successFlag : SaveResult → Bool
  | .conflict _ _ => false
  | .ok _ _ _ => true

def SaveResult.statusCode : SaveResult → Option Nat
  | .conflict _ _ => some 409
  | .ok _ _ _ => none

/-- Embeds `Client.save_content`: refuse when the destination exists and
`uploadFlag` is set, otherwise write unconditionally. -/
def save_content (σ : Store) (bucket_name destination_blob_name content : String)
    (uploadFlag : Bool) : SaveResult × Store :=
  if existsKey σ destination_blob_name && uploadFlag then
    (.conflict destination_blob_name bucket_name, σ)
  else
    (.ok destination_blob_name bucket_name content.length,
      upsert σ
        { key := destination_blob_name, size := content.length, content := content,
          timeCreated := "", updated := "", contentType := "media" })

/-- The result dict of `Client.delete_file`. -/
inductive DelResult where
  | success
  | err (msg : String) (status : Nat)
deriving DecidableEq, Repr

def DelResult.statusOf : DelResult → Option Nat
  | .success => none
  | .err _ s => some s

/-- Embeds `Client.delete_file`: root guard, exact-key check, scan under
`path ++ "/"` counting entries other than the slash-stripped marker, then
deletion of the single blob (exact key or marker). -/
def delete_file (σ : Store) (path : String) : DelResult × Store :=
  if path = "" ∨ path = "/" then
    (.err "Deleting Bucket is not allowed." 409, σ)
  else if existsKey σ path then
    (.success, σ.filter (fun b => b.key != path))
  else
    let children := blobsUnder σ (path ++ "/")
    if children.any (fun b => stripSlash b.key != path) then
      (.err "Non-Empty folder cannot be deleted." 409, σ)
    else if existsKey σ (path ++ "/") then
      (.success, σ.filter (fun b => b.key != path ++ "/"))
    else
      (.err "File/Folder not found." 404, σ)

/-- The result dict of `Client.rename_file`. -/
inductive RenResult where
  | ok (name bucket : String)
  | err (msg : String) (status : Nat)
deriving DecidableEq, Repr

/-- Models `bucket.rename_blob(blob, newKey)`: the object is copied to the
new key (replacing anything there) and the old key is deleted. -/
def moveBlob (σ : Store) (old new : String) : Store :=
  match lookupBlob σ old with
  | some b => (σ.filter (fun x => x.key != old && x.key != new)) ++ [{ b with key := new }]
  | none => σ

/-- Embeds `Client.rename_file`: exact-key check; otherwise scan under the
slash-terminated source (the source itself when it already ends in a
slash), distinguishing empty folder / non-empty folder / missing; then a
destination-availability check and the rename itself. -/
def rename_file (σ : Store) (bucket_name blob_name new_name : String) :
    RenResult × Store :=
  if existsKey σ blob_name then
    if existsKey σ new_name then
      (.err ("A file with name " ++ new_name ++ " already exists in the destination.") 409, σ)
    else
      (.ok new_name bucket_name, moveBlob σ blob_name new_name)
  else
    let pre := if endsSlash blob_name then blob_name else blob_name ++ "/"
    let blobs := blobsUnder σ pre
    if !blobs.isEmpty && blobs.all (fun b => stripSlash b.key == blob_name) then
      if !(blobsUnder σ (new_name ++ "/")).isEmpty then
        (.err ("A folder with name " ++ new_name ++ " already exists in the destination.") 409, σ)
      else
        (.ok (new_name ++ "/") bucket_name, moveBlob σ (blob_name ++ "/") (new_name ++ "/"))
    else if blobs.any (fun b => stripSlash b.key != blob_name) then
      (.err "Non-Empty folder cannot be renamed." 409, σ)
    else
      (.err (blob_name ++ " not found") 404, σ)

/-- The virtual classification of a path computed by the existence scans. -/
inductive PathClass where
  | Missing
  | File
  | EmptyFolder
  | NonEmptyFolder
deriving DecidableEq, Repr

/-- The existence scan of `Client.delete_file` (after its root guard):
exact-key check, then a listing under `path ++ "/"` in which only the
entry whose slash-stripped name equals `path` does not count as a child. -/
def deleteClassify (σ : Store) (path : String) : PathClass :=
  if existsKey σ path then .File
  else
    let children := blobsUnder σ (path ++ "/")
    if children.any (fun b => stripSlash b.key != path) then .NonEmptyFolder
    else if existsKey σ (path ++ "/") then .EmptyFolder
    else .Missing

/-- The existence scan of `Client.rename_file`: exact-key check, then a
listing under the source name itself when it already ends in a slash,
otherwise under `blob_name ++ "/"`, with the same slash-stripped
child-counting rule. -/
def renameClassify (σ : Store) (blob_name : String) : PathClass :=
  if existsKey σ blob_name then .File
  else
    let pre := if endsSlash blob_name then blob_name else blob_name ++ "/"
    let blobs := blobsUnder σ pre
    if !blobs.isEmpty && blobs.all (fun b => stripSlash b.key == blob_name) then .EmptyFolder
    else if blobs.any (fun b => stripSlash b.key != blob_name) then .NonEmptyFolder
    else .Missing

-- ## Listing (from `Client.list_files`)

/-- One entry of the `files` list of `list_files`. -/
structure FileItem where
  name : String
  timeCreated : String
  updated : String
  size : Nat
  contentType : String
deriving DecidableEq, Repr

/-- One entry of the `prefixes` list of `list_files`. -/
structure SubdirItem where
  name : String
  updatedAt : String
deriving DecidableEq, Repr

def mkFileItem (b : Blob) : FileItem :=
  { name := b.key, timeCreated := b.timeCreated, updated := b.updated,
    size := b.size, contentType := b.contentType }

/-- The items of `client.list_blobs(bucket, prefix=pfx, delimiter="/")`:
blobs under the queried path whose remaining name holds no further
delimiter. -/
def delimFiles (σ : Store) (pfx : String) : List Blob :=
  σ.filter (fun b => keyPre pfx b.key && !((b.key.data.drop pfx.data.length).contains '/'))

/-- For a blob nested more than one level under the query, the one-level
subdirectory it falls into (Python: `parts = rel.split('/', 1)`;
`pfx + parts[0] + '/'` when `len(parts) > 1`). -/
def subdirOf (pfx key : String) : Option String :=
  let rel := key.data.drop pfx.data.length
  if rel.contains '/' then
    some (pfx ++ String.mk (rel.takeWhile (fun c => c != '/')) ++ "/")
  else none

/-- The common prefixes of the delimiter listing. -/
def delimPrefixes (σ : Store) (pfx : String) : List String :=
  (σ.filterMap (fun b => if keyPre pfx b.key then subdirOf pfx b.key else none)).dedup

/-- One step of the `prefix_latest_updated` accumulation: insert this
blob's `updated` stamp for its subdirectory, or overwrite a smaller one. -/
def updEntry (m : List (String × String)) (sub upd : String) : List (String × String) :=
  match m.find? (fun e => e.1 == sub) with
  | none => m ++ [(sub, upd)]
  | some e =>
      if upd ≠ "" ∧ e.2 < upd then
        m.map (fun e2 => if e2.1 == sub then (sub, upd) else e2)
      else m

/-- The `prefix_latest_updated` map: a second, delimiter-free listing
under the query, grouped by first-level subdirectory. -/
def buildLatest (σ : Store) (pfx : String) (prefixes : List String) :
    List (String × String) :=
  (blobsUnder σ pfx).foldl
    (fun m b =>
      match subdirOf pfx b.key with
      | some sub => if sub ∈ prefixes then updEntry m sub b.updated else m
      | none => m)
    []

def mkSubdirItem (latest : List (String × String)) (pref : String) : SubdirItem :=
  { name := pref,
    updatedAt := (((latest.find? (fun e => e.1 == pref)).map (fun e => e.2)).getD "") }

/-- The value `Client.list_files` hands back: the result dict, or the bare
empty list `[]` that the `except` handler returns. -/
inductive LFResult where
  | ok (prefixes : List SubdirItem) (files : List FileItem)
  | errEmptyList
deriving DecidableEq, Repr

def LFResult.filesOf : LFResult → List FileItem
  | .ok _ fs => fs
  | .errEmptyList => []

def LFResult.prefixesOf : LFResult → List SubdirItem
  | .ok ps _ => ps
  | .errEmptyList => []

/-- Embeds `Client.list_files`.  `fail1` stands for a failure of the
delimiter listing, `fail2` for a failure of the second, delimiter-free
listing (only issued when the delimiter listing reported common
prefixes); any raised failure lands in the `except` branch, which returns
the bare empty list. -/
def list_files (σ : Store) (pfx : String) (fail1 fail2 : Bool) : LFResult :=
  if fail1 then .errEmptyList
  else
    let files := delimFiles σ pfx
    let prefixes := delimPrefixes σ pfx
    if !prefixes.isEmpty && fail2 then .errEmptyList
    else
      let latest := if !prefixes.isEmpty then buildLatest σ pfx prefixes else []
      .ok (prefixes.map (mkSubdirItem latest))
        ((files.filter (fun b => !(b.key == pfx && b.size == 0))).map mkFileItem)

-- ## Request layer (from `controllers/gcs.py`)

/-- What `CreateFolderController.post` does with a parsed JSON body:
either a 400 response before any storage work, or the storage call
`create_folder(bucket, path, folderName)`. -/
inductive CreateFolderResp where
  | badRequest
  | proceed (bucket path folderName : String)
deriving DecidableEq, Repr

/-- Python truthiness of an optional string (`not x` for `None` or `""`). -/
def isFalsy : Option String → Bool
  | none => true
  | some s => s == ""

/-- Embeds the parameter validation of `CreateFolderController.post`:
`path` is read with `data.get("path", "")`, and only `bucket` and
`folderName` are checked before the storage call. -/
def createFolderPost (bucket path folderName : Option String) : CreateFolderResp :=
  let p := path.getD ""
  if isFalsy bucket || isFalsy folderName then .badRequest
  else .proceed (bucket.getD "") p (folderName.getD "")

-- ## Claim theorems

/-- C1: for every container and every path `p` that is a non-empty folder
(at least one blob besides the marker at `p ++ "/"` has a key starting
with `p ++ "/"`, and no blob sits at exactly `p`), `delete_file` returns
an error with status 409 and leaves the set of blobs unchanged. -/
theorem delete_nonEmptyFolder_conflict (σ : Store) (p : String)
    (hchild : ∃ b ∈ σ, keyPre (p ++ "/") b.key = true ∧ b.key ≠ p ++ "/")
    (hnof : ∀ b ∈ σ, b.key ≠ p) :
    (delete_file σ p).1.statusOf = some 409 ∧ (delete_file σ p).2 = σ := by
  by_cases hroot : p = "" ∨ p = "/"
  · unfold delete_file
    rw [if_pos hroot]
    exact ⟨rfl, rfl⟩
  · have hex : existsKey σ p = false := (existsKey_false_iff σ p).mpr hnof
    have hany : (blobsUnder σ (p ++ "/")).any (fun b => stripSlash b.key != p) = true := by
      rw [List.any_eq_true]
      obtain ⟨b, hbmem, hbpre, hbne⟩ := hchild
      refine ⟨b, ?_, ?_⟩
      · rw [blobsUnder, List.mem_filter]
        exact ⟨hbmem, hbpre⟩
      · rw [bne_iff_ne]
        intro hstrip
        exact hbne (stripSlash_pre_eq p b.key hbpre hstrip)
    unfold delete_file
    simp [hroot, hex, hany, DelResult.statusOf]

theorem delete_nonEmptyFolder_conflict_witness :
    (delete_file [mkB "a/" 0, mkB "a/x.txt" 10] "a").1.statusOf = some 409 ∧
    (delete_file [mkB "a/" 0, mkB "a/x.txt" 10] "a").2 = [mkB "a/" 0, mkB "a/x.txt" 10] :=
  delete_nonEmptyFolder_conflict [mkB "a/" 0, mkB "a/x.txt" 10] "a" (by decide) (by decide)

/-- C2: `save_content` with `uploadFlag = true` against an existing key
reports `success = false` with status 409 and writes nothing. -/
theorem save_upload_existing_conflict (σ : Store) (bucket dest content : String)
    (hex : existsKey σ dest = true) :
    (save_content σ bucket dest content true).1.successFlag = false ∧
    (save_content σ bucket dest content true).1.statusCode = some 409 ∧
    (save_content σ bucket dest content true).2 = σ := by
  unfold save_content
  simp [hex, SaveResult.successFlag, SaveResult.statusCode]

theorem save_upload_existing_conflict_witness :
    (save_content [mkB "k.txt" 4] "bkt" "k.txt" "new text" true).1.successFlag = false ∧
    (save_content [mkB "k.txt" 4] "bkt" "k.txt" "new text" true).1.statusCode = some 409 ∧
    (save_content [mkB "k.txt" 4] "bkt" "k.txt" "new text" true).2 = [mkB "k.txt" 4] :=
  save_upload_existing_conflict [mkB "k.txt" 4] "bkt" "k.txt" "new text" (by decide)




-- Consistency of the classification helpers with the full operations.

theorem delete_file_matches_classify (σ : Store) (p : String)
    (hroot : ¬(p = "" ∨ p = "/")) :
    (delete_file σ p).1 =
      match deleteClassify σ p with
      | .File => .success
      | .EmptyFolder => .success
      | .NonEmptyFolder => .err "Non-Empty folder cannot be deleted." 409
      | .Missing => .err "File/Folder not found." 404 := by
  rcases Bool.eq_false_or_eq_true (existsKey σ p) with hex | hex
  · simp [delete_file, deleteClassify, hroot, hex]
  · rcases Bool.eq_false_or_eq_true
        ((blobsUnder σ (p ++ "/")).any (fun b => stripSlash b.key != p)) with hany | hany
    · simp [delete_file, deleteClassify, hroot, hex, hany]
    · rcases Bool.eq_false_or_eq_true (existsKey σ (p ++ "/")) with hm | hm <;>
        simp [delete_file, deleteClassify, hroot, hex, hany, hm]

theorem rename_file_nonEmpty_conflict (σ : Store) (bucket p n : String)
    (hcls : renameClassify σ p = PathClass.NonEmptyFolder) :
    (rename_file σ bucket p n).1 = .err "Non-Empty folder cannot be renamed." 409 := by
  rcases Bool.eq_false_or_eq_true (existsKey σ p) with hex | hex
  · simp [renameClassify, hex] at hcls
  · rcases Bool.eq_false_or_eq_true
        (!(blobsUnder σ (if endsSlash p then p else p ++ "/")).isEmpty &&
          (blobsUnder σ (if endsSlash p then p else p ++ "/")).all
            (fun b => stripSlash b.key == p)) with hemp | hemp
    · simp [renameClassify, hex, hemp] at hcls
    · rcases Bool.eq_false_or_eq_true
          ((blobsUnder σ (if endsSlash p then p else p ++ "/")).any
            (fun b => stripSlash b.key != p)) with hany | hany
      · simp [rename_file, hex, hemp, hany]
      · simp [renameClassify, hex, hemp, hany] at hcls

/-- C3: for a source path that does not end in a slash, the existence scan
of `rename_file` classifies it exactly as the scan of `delete_file` does. -/
theorem classify_agree_noTrailingSlash (σ : Store) (p : String)
    (h : endsSlash p = false) :
    deleteClassify σ p = renameClassify σ p := by
  rcases Bool.eq_false_or_eq_true (existsKey σ p) with hex | hex
  · simp [deleteClassify, renameClassify, hex]
  · rcases Bool.eq_false_or_eq_true
        ((blobsUnder σ (p ++ "/")).any (fun b => stripSlash b.key != p)) with hany | hany
    · have hall : (blobsUnder σ (p ++ "/")).all (fun b => stripSlash b.key == p) = false := by
        rw [List.any_eq_true] at hany
        obtain ⟨b, hb, hbne⟩ := hany
        rw [← Bool.not_eq_true, List.all_eq_true]
        intro hcon
        have hx := hcon b hb
        rw [beq_iff_eq] at hx
        rw [bne_iff_ne] at hbne
        exact hbne hx
      have hany' : (blobsUnder σ (p ++ "/")).any (fun b => stripSlash b.key != p) = true := by
        rw [List.any_eq_true]
        rw [List.any_eq_true] at hany
        exact hany
      simp [deleteClassify, renameClassify, h, hex, hany', hall]
    · have hall : (blobsUnder σ (p ++ "/")).all (fun b => stripSlash b.key == p) = true := by
        rw [List.all_eq_true]
        intro b hb
        rw [beq_iff_eq]
        by_contra hne
        have hx : (blobsUnder σ (p ++ "/")).any (fun b => stripSlash b.key != p) = true := by
          rw [List.any_eq_true]
          exact ⟨b, hb, by rwa [bne_iff_ne]⟩
        rw [hany] at hx
        exact Bool.false_ne_true hx
      rcases Bool.eq_false_or_eq_true (blobsUnder σ (p ++ "/")).isEmpty with hemp | hemp
      · -- listing nonempty would contradict: here the listing holds the marker
        have hBnil : blobsUnder σ (p ++ "/") = [] := List.isEmpty_iff.mp hemp
        have hm : existsKey σ (p ++ "/") = false := by
          rw [existsKey_false_iff]
          intro b hbσ hbkey
          have hbpre : keyPre (p ++ "/") b.key = true := by
            rw [hbkey, keyPre_iff]
          have hx : b ∈ blobsUnder σ (p ++ "/") := List.mem_filter.mpr ⟨hbσ, hbpre⟩
          rw [hBnil] at hx
          exact List.not_mem_nil b hx
        simp [deleteClassify, renameClassify, h, hex, hany, hall, hemp, hm]
      · -- listing nonempty: both scans see the empty-folder marker
        have hne : blobsUnder σ (p ++ "/") ≠ [] := by
          intro hnil
          rw [hnil] at hemp
          exact absurd hemp (by decide)
        obtain ⟨b, hb⟩ := List.exists_mem_of_ne_nil _ hne
        have hbpre : keyPre (p ++ "/") b.key = true := (List.mem_filter.mp hb).2
        have hbstrip : stripSlash b.key = p := by
          have hx := List.all_eq_true.mp hall b hb
          rwa [beq_iff_eq] at hx
        have hbkey : b.key = p ++ "/" := stripSlash_pre_eq p b.key hbpre hbstrip
        have hm : existsKey σ (p ++ "/") = true := by
          rw [existsKey_iff]
          exact ⟨b, (List.mem_filter.mp hb).1, hbkey⟩
        simp [deleteClassify, renameClassify, h, hex, hany, hall, hemp, hm]

theorem classify_agree_noTrailingSlash_witness :
    endsSlash "a" = false ∧
    deleteClassify [mkB "a/" 0, mkB "a/x" 1] "a" =
      renameClassify [mkB "a/" 0, mkB "a/x" 1] "a" :=
  ⟨by decide, classify_agree_noTrailingSlash [mkB "a/" 0, mkB "a/x" 1] "a" (by decide)⟩

/-- C3 counterexample: for the slash-terminated path `"a/"` over a store
holding only the blob `"a/x"`, delete scans under `"a//"` and reports
Missing (404) while rename scans under `"a/"` and reports a non-empty
folder (409): the two scans do not classify alike. -/
theorem classify_slash_counterexample :
    deleteClassify [mkB "a/x" 1] "a/" = PathClass.Missing ∧
    renameClassify [mkB "a/x" 1] "a/" = PathClass.NonEmptyFolder ∧
    deleteClassify [mkB "a/x" 1] "a/" ≠ renameClassify [mkB "a/x" 1] "a/" ∧
    (delete_file [mkB "a/x" 1] "a/").1 = DelResult.err "File/Folder not found." 404 ∧
    (rename_file [mkB "a/x" 1] "bkt" "a/" "b").1 =
      RenResult.err "Non-Empty folder cannot be renamed." 409 := by
  decide

-- Writing a blob leaves exactly that blob at its key.

theorem filter_key_upsert (σ : Store) (b : Blob) :
    (upsert σ b).filter (fun x => x.key == b.key) = [b] := by
  unfold upsert
  rw [List.filter_append]
  have h1 : (σ.filter (fun x => x.key != b.key)).filter (fun x => x.key == b.key) = [] := by
    rw [List.filter_filter]
    apply List.filter_eq_nil_iff.mpr
    intro a _
    cases hab : a.key == b.key
    · simp [hab]
    · simp [hab, bne]
  rw [h1]
  simp

/-- C4: `create_folder` is idempotent on the key set: two identical calls
leave exactly one zero-byte marker blob at the computed path
`folderName ++ "/"` (empty parent) or `parent ++ "/" ++ folderName ++ "/"`. -/
theorem createFolder_idempotent (σ : Store) (path folder_name : String) :
    ((create_folder (create_folder σ path folder_name).2 path folder_name).2.filter
        (fun b => b.key ==
          (if path = "" then folder_name ++ "/" else path ++ "/" ++ folder_name ++ "/"))) =
      [{ key := (if path = "" then folder_name ++ "/" else path ++ "/" ++ folder_name ++ "/"),
         size := 0, content := "", timeCreated := "", updated := "",
         contentType := "application/x-www-form-urlencoded;charset=UTF-8" }] := by
  simp only [create_folder]
  exact filter_key_upsert
    (upsert σ
      { key := (if path = "" then folder_name ++ "/" else path ++ "/" ++ folder_name ++ "/"),
        size := 0, content := "", timeCreated := "", updated := "",
        contentType := "application/x-www-form-urlencoded;charset=UTF-8" })
    { key := (if path = "" then folder_name ++ "/" else path ++ "/" ++ folder_name ++ "/"),
      size := 0, content := "", timeCreated := "", updated := "",
      contentType := "application/x-www-form-urlencoded;charset=UTF-8" }

/-- C5: the `files` list of a successful `list_files` holds exactly the
delimiter-listing items other than a zero-byte blob whose key equals the
queried path itself; in particular the query's own folder marker never
appears among the files. -/
theorem listFiles_excludes_own_marker (σ : Store) (pfx : String) (b : Blob)
    (hb : b ∈ delimFiles σ pfx) :
    (mkFileItem b ∈ (list_files σ pfx false false).filesOf ↔
      ¬(b.key = pfx ∧ b.size = 0)) ∧
    ∀ it ∈ (list_files σ pfx false false).filesOf, ¬(it.name = pfx ∧ it.size = 0) := by
  have hred : (list_files σ pfx false false).filesOf =
      ((delimFiles σ pfx).filter (fun x => !(x.key == pfx && x.size == 0))).map mkFileItem := by
    simp [list_files, LFResult.filesOf]
  rw [hred]
  constructor
  · constructor
    · intro hmem
      rw [List.mem_map] at hmem
      obtain ⟨b2, hb2, heq⟩ := hmem
      rw [List.mem_filter] at hb2
      have hfields : b2.key = b.key ∧ b2.size = b.size := by
        have h1 : (mkFileItem b2).name = (mkFileItem b).name := by rw [heq]
        have h2 : (mkFileItem b2).size = (mkFileItem b).size := by rw [heq]
        exact ⟨h1, h2⟩
      rintro ⟨hk, hs⟩
      have hpred := hb2.2
      rw [hfields.1, hfields.2, hk, hs] at hpred
      simp at hpred
    · intro hnot
      rw [List.mem_map]
      refine ⟨b, List.mem_filter.mpr ⟨hb, ?_⟩, rfl⟩
      cases hkq : (b.key == pfx && b.size == 0)
      · simp [hkq]
      · exfalso
        rw [Bool.and_eq_true] at hkq
        exact hnot ⟨by simpa using hkq.1, by simpa using hkq.2⟩
  · intro it hit
    rw [List.mem_map] at hit
    obtain ⟨b2, hb2, heq⟩ := hit
    rw [List.mem_filter] at hb2
    rintro ⟨hk, hs⟩
    have hkey : it.name = b2.key := by rw [← heq]; rfl
    have hsize : it.size = b2.size := by rw [← heq]; rfl
    have hpred := hb2.2
    rw [hkey] at hk
    rw [hsize] at hs
    rw [hk, hs] at hpred
    simp at hpred

theorem listFiles_excludes_own_marker_witness :
    (mkB "a/x.txt" 10) ∈ delimFiles [mkB "a/" 0, mkB "a/x.txt" 10] "a/" ∧
    ((mkFileItem (mkB "a/x.txt" 10) ∈
        (list_files [mkB "a/" 0, mkB "a/x.txt" 10] "a/" false false).filesOf ↔
      ¬((mkB "a/x.txt" 10).key = "a/" ∧ (mkB "a/x.txt" 10).size = 0)) ∧
    ∀ it ∈ (list_files [mkB "a/" 0, mkB "a/x.txt" 10] "a/" false false).filesOf,
      ¬(it.name = "a/" ∧ it.size = 0)) :=
  ⟨by decide,
    listFiles_excludes_own_marker [mkB "a/" 0, mkB "a/x.txt" 10] "a/" (mkB "a/x.txt" 10)
      (by decide)⟩

/-- C6: when a storage call inside `list_files` raises (the delimiter
listing, or the second listing that runs when common prefixes were
reported), the whole operation returns the bare empty list: both the
files and the folders accessors yield `[]`, and no error value reaches
the caller. -/
theorem listFiles_failure_empty (σ : Store) (pfx : String) (fail1 fail2 : Bool)
    (h : fail1 = true ∨ (fail2 = true ∧ (delimPrefixes σ pfx).isEmpty = false)) :
    list_files σ pfx fail1 fail2 = LFResult.errEmptyList ∧
    (list_files σ pfx fail1 fail2).filesOf = [] ∧
    (list_files σ pfx fail1 fail2).prefixesOf = [] := by
  have hmain : list_files σ pfx fail1 fail2 = LFResult.errEmptyList := by
    rcases h with h1 | ⟨h2, hp⟩
    · simp [list_files, h1]
    · rcases Bool.eq_false_or_eq_true fail1 with h1 | h1
      · simp [list_files, h1]
      · simp [list_files, h1, h2, hp]
  refine ⟨hmain, ?_, ?_⟩ <;> rw [hmain] <;> rfl

theorem listFiles_failure_empty_witness :
    (true = true ∨ (false = true ∧ (delimPrefixes [] "").isEmpty = false)) ∧
    (list_files [] "" true false = LFResult.errEmptyList ∧
     (list_files [] "" true false).filesOf = [] ∧
     (list_files [] "" true false).prefixesOf = []) :=
  ⟨Or.inl rfl, listFiles_failure_empty [] "" true false (Or.inl rfl)⟩

/-- C7 (amended): `get_file` with `format = "json"` returns the blob's
downloaded text unparsed — the very same value as the default raw-text
branch. -/
theorem getFile_json_returns_raw_text (σ : Store) (k : String) (b : Blob)
    (hb : lookupBlob σ k = some b) :
    get_file σ k "json" = GetResult.text b.content ∧
    get_file σ k "json" = get_file σ k "text" := by
  unfold get_file
  rw [hb]
  exact ⟨rfl, rfl⟩

theorem getFile_json_returns_raw_text_witness :
    lookupBlob [{ mkB "d.json" 6 with content := "[1, 2]" }] "d.json" =
      some { mkB "d.json" 6 with content := "[1, 2]" } ∧
    (get_file [{ mkB "d.json" 6 with content := "[1, 2]" }] "d.json" "json" =
        GetResult.text "[1, 2]" ∧
     get_file [{ mkB "d.json" 6 with content := "[1, 2]" }] "d.json" "json" =
       get_file [{ mkB "d.json" 6 with content := "[1, 2]" }] "d.json" "text") :=
  ⟨by decide,
    getFile_json_returns_raw_text _ "d.json" { mkB "d.json" 6 with content := "[1, 2]" }
      (by decide)⟩

/-- C7 counterexample: on a blob whose text is the JSON document
`"[1, 2]"`, the `json` branch hands back exactly that raw text (the
`GetResult.text` constructor with the unmodified content) — no parsed,
structured value is ever produced; the result is indistinguishable from
the plain-text branch. -/
theorem getFile_json_counterexample :
    get_file [{ mkB "d.json" 6 with content := "[1, 2]" }] "d.json" "json" =
      GetResult.text "[1, 2]" ∧
    get_file [{ mkB "d.json" 6 with content := "[1, 2]" }] "d.json" "json" =
      get_file [{ mkB "d.json" 6 with content := "[1, 2]" }] "d.json" "raw-anything" := by
  decide

/-- C8 (amended): `CreateFolderController.post` rejects with 400 exactly
when `bucket` or `folderName` is missing or empty; a missing `path`
defaults to the empty string and the storage call proceeds. -/
theorem createFolderPost_validation (bucket path folderName : Option String) :
    (createFolderPost bucket path folderName = CreateFolderResp.badRequest ↔
      (isFalsy bucket = true ∨ isFalsy folderName = true)) ∧
    ((isFalsy bucket = false ∧ isFalsy folderName = false) →
      createFolderPost bucket path folderName =
        CreateFolderResp.proceed (bucket.getD "") (path.getD "") (folderName.getD "")) := by
  constructor
  · rcases Bool.eq_false_or_eq_true (isFalsy bucket) with hb | hb <;>
      rcases Bool.eq_false_or_eq_true (isFalsy folderName) with hf | hf <;>
      simp [createFolderPost, hb, hf]
  · rintro ⟨hb, hf⟩
    simp [createFolderPost, hb, hf]

theorem createFolderPost_validation_witness :
    (createFolderPost (some "bkt") (some "p") (some "f") = CreateFolderResp.badRequest ↔
      (isFalsy (some "bkt") = true ∨ isFalsy (some "f") = true)) ∧
    ((isFalsy (some "bkt") = false ∧ isFalsy (some "f") = false) →
      createFolderPost (some "bkt") (some "p") (some "f") =
        CreateFolderResp.proceed ((some "bkt").getD "") ((some "p").getD "")
          ((some "f").getD "")) :=
  createFolderPost_validation (some "bkt") (some "p") (some "f")

/-- C8 counterexample: a body with `bucket` and `folderName` present but
no `path` is not rejected — the controller substitutes the empty string
and proceeds to the storage call instead of returning 400. -/
theorem createFolderPost_missingPath_counterexample :
    createFolderPost (some "bkt") none (some "f") = CreateFolderResp.proceed "bkt" "" "f" ∧
    createFolderPost (some "bkt") none (some "f") ≠ CreateFolderResp.badRequest := by
  decide

/-- C9 (amended): for a path that is neither empty nor the bare root
slash, when a blob sits at exactly that key, `delete_file` takes the
file branch: the scan under `p ++ "/"` is skipped (the path classifies as
File), the result is `success`, only the blob at `p` is removed, and
every blob whose key starts with `p ++ "/"` survives. -/
theorem deleteFile_exactKey_noScan (σ : Store) (p : String)
    (h1 : p ≠ "") (h2 : p ≠ "/") (hex : existsKey σ p = true) :
    (delete_file σ p).1 = DelResult.success ∧
    (delete_file σ p).2 = σ.filter (fun b => b.key != p) ∧
    deleteClassify σ p = PathClass.File ∧
    ∀ b ∈ σ, keyPre (p ++ "/") b.key = true → b ∈ (delete_file σ p).2 := by
  have hroot : ¬(p = "" ∨ p = "/") := by
    rintro (h | h)
    · exact h1 h
    · exact h2 h
  have hdel : delete_file σ p = (.success, σ.filter (fun b => b.key != p)) := by
    unfold delete_file
    rw [if_neg hroot, if_pos hex]
  refine ⟨by rw [hdel], by rw [hdel], ?_, ?_⟩
  · unfold deleteClassify
    rw [if_pos hex]
  · intro b hbσ hbpre
    rw [hdel]
    simp only [List.mem_filter]
    refine ⟨hbσ, ?_⟩
    rw [bne_iff_ne]
    exact keyPre_slash_ne p b.key hbpre

theorem deleteFile_exactKey_noScan_witness :
    ("a" ≠ "" ∧ "a" ≠ "/" ∧ existsKey [mkB "a" 5, mkB "a/x" 1] "a" = true) ∧
    ((delete_file [mkB "a" 5, mkB "a/x" 1] "a").1 = DelResult.success ∧
     (delete_file [mkB "a" 5, mkB "a/x" 1] "a").2 =
       List.filter (fun b => b.key != "a") [mkB "a" 5, mkB "a/x" 1] ∧
     deleteClassify [mkB "a" 5, mkB "a/x" 1] "a" = PathClass.File ∧
     ∀ b ∈ [mkB "a" 5, mkB "a/x" 1], keyPre ("a" ++ "/") b.key = true →
       b ∈ (delete_file [mkB "a" 5, mkB "a/x" 1] "a").2) :=
  ⟨⟨by decide, by decide, by decide⟩,
    deleteFile_exactKey_noScan [mkB "a" 5, mkB "a/x" 1] "a" (by decide) (by decide) (by decide)⟩

/-- C9 counterexample: a blob stored at the key `"/"` satisfies "a blob
exists at exactly p" for `p = "/"`, yet `delete_file` answers with the
root-guard conflict (status 409) and deletes nothing — it does not return
success. -/
theorem deleteFile_root_counterexample :
    existsKey [mkB "/" 3] "/" = true ∧
    (delete_file [mkB "/" 3] "/").1 ≠ DelResult.success ∧
    (delete_file [mkB "/" 3] "/").1 = DelResult.err "Deleting Bucket is not allowed." 409 ∧
    (delete_file [mkB "/" 3] "/").2 = [mkB "/" 3] := by
  decide

/-- C10: when a zero-byte marker blob sits at exactly a slash-terminated
source key, `rename_file` short-circuits on the exact-key existence check
(classifying the source as a file), skips the folder scan, and renames
the marker to the destination with no trailing slash appended: the store
ends up with a zero-byte blob at `dst`, not a folder marker at
`dst ++ "/"`. -/
theorem renameFile_slashMarker_asFile (σ : Store) (bucket src dst : String) (m : Blob)
    (_hslash : endsSlash src = true)
    (hm : lookupBlob σ src = some m) (hms : m.size = 0)
    (hdst : existsKey σ dst = false) :
    (rename_file σ bucket src dst).1 = RenResult.ok dst bucket ∧
    (rename_file σ bucket src dst).2 =
      (σ.filter (fun x => x.key != src && x.key != dst)) ++ [{ m with key := dst }] ∧
    ({ m with key := dst } : Blob).size = 0 ∧
    renameClassify σ src = PathClass.File := by
  have hexsrc : existsKey σ src = true := by
    rw [existsKey_iff]
    refine ⟨m, List.mem_of_find?_eq_some hm, ?_⟩
    have hx := List.find?_some hm
    simpa using hx
  have hr : rename_file σ bucket src dst = (.ok dst bucket, moveBlob σ src dst) := by
    unfold rename_file
    rw [if_pos hexsrc, if_neg (by simp [hdst])]
  have hmv : moveBlob σ src dst =
      (σ.filter (fun x => x.key != src && x.key != dst)) ++ [{ m with key := dst }] := by
    unfold moveBlob
    rw [hm]
  refine ⟨by rw [hr], by rw [hr, hmv], hms, ?_⟩
  unfold renameClassify
  rw [if_pos hexsrc]

theorem renameFile_slashMarker_asFile_witness :
    (endsSlash "a/sub/" = true ∧
     lookupBlob [mkB "a/sub/" 0] "a/sub/" = some (mkB "a/sub/" 0) ∧
     (mkB "a/sub/" 0).size = 0 ∧
     existsKey [mkB "a/sub/" 0] "a/sub2" = false) ∧
    ((rename_file [mkB "a/sub/" 0] "bkt" "a/sub/" "a/sub2").1 =
        RenResult.ok "a/sub2" "bkt" ∧
     (rename_file [mkB "a/sub/" 0] "bkt" "a/sub/" "a/sub2").2 =
       (List.filter (fun x => x.key != "a/sub/" && x.key != "a/sub2") [mkB "a/sub/" 0]) ++
         [{ mkB "a/sub/" 0 with key := "a/sub2" }] ∧
     ({ mkB "a/sub/" 0 with key := "a/sub2" } : Blob).size = 0 ∧
     renameClassify [mkB "a/sub/" 0] "a/sub/" = PathClass.File) :=
  ⟨⟨by decide, by decide, by decide, by decide⟩,
    renameFile_slashMarker_asFile [mkB "a/sub/" 0] "bkt" "a/sub/" "a/sub2" (mkB "a/sub/" 0)
      (by decide) (by decide) (by decide) (by decide)⟩
